import Mathlib

/-!
# SimpleMail IMAP synchronization core: a shallow embedding

This file embeds, in Lean, the identifier codec, message-parsing defaults,
fetch-window selection, and the bulk mutation / folder-management command
flows of the SimpleMail backend (`src-tauri/src`), and proves the stated
properties about them.

Modelling conventions:
* Rust `String` / `&str` values are modelled as `List Char`; `str::split('-')`
  is `List.splitOn '-'`; Unicode lowercasing is modelled on ASCII letters.
* `u32` values are `Nat` with explicit `< 2 ^ 32` bounds where parsing matters.
* The external IMAP session is modelled by an oracle (`Net`) saying which
  remote operations succeed, and each client method records the trace of
  remote operations it attempts (`RemoteOp`).
* The external `mailparse` parser is modelled by letting a fetched message
  carry the parse outcome of its bytes (`Except` of a structured mail).
* The SQLite store is modelled as in-memory lists of rows; a transaction is
  atomic in the model.
-/

set_option linter.unusedVariables false

namespace SimpleMail

/-- ASCII lowercasing of one character (models `char::to_lowercase` on the
ASCII range, which is the range the folder-policy words live in). -/
def lowerChar (c : Char) : Char :=
  if 65 ≤ c.toNat ∧ c.toNat ≤ 90 then Char.ofNat (c.toNat + 32) else c

/-- Models `str::to_lowercase` (ASCII range). -/
def lowerStr (s : List Char) : List Char := s.map lowerChar

/-- Models `str::contains(&str)`: substring containment. -/
def containsSub : List Char → List Char → Bool
  | [], needle => needle.isEmpty
  | c :: t, needle => needle.isPrefixOf (c :: t) || containsSub t needle

/-- ASCII decimal digit test, as in `u32::from_str`. -/
def isDigitChar (c : Char) : Bool := decide (48 ≤ c.toNat) && decide (c.toNat ≤ 57)

/-- Numeric value of an ASCII digit. -/
def digitVal (c : Char) : Nat := c.toNat - 48

/-- Accumulator loop of `u32::from_str`: consume decimal digits. -/
def parseDigitsAux : List Char → Nat → Option Nat
  | [], acc => some acc
  | c :: cs, acc => if isDigitChar c then parseDigitsAux cs (acc * 10 + digitVal c) else none

/-- `u32::from_str` accepts one optional leading `+` sign. -/
def stripPlus : List Char → List Char
  | [] => []
  | c :: cs => if c = '+' then cs else c :: cs

/-- Models `str::parse::<u32>()`: optional `+`, at least one decimal digit,
value must fit in 32 bits. -/
def parseU32 (s : List Char) : Option Nat :=
  let t := stripPlus s
  if t.isEmpty then none
  else
    match parseDigitsAux t 0 with
    | some n => if n < 2 ^ 32 then some n else none
    | none => none

/-- Decimal rendering of a `u32`, as produced by `format!("{}", uid)`. -/
def natToDecimal (n : Nat) : List Char :=
  if n = 0 then ['0'] else ((Nat.digits 10 n).map Nat.digitChar).reverse

/-- The composite local identifier `format!("{}-{}-{}", account_id, folder_name, uid)`
built in `commands/email_ops.rs` (`fetch_emails`). -/
def encodeEmailId (accountId folderName : List Char) (uid : Nat) : List Char :=
  accountId ++ '-' :: (folderName ++ '-' :: natToDecimal uid)

/-- The identifier decoder used by the bulk commands in
`commands/email_actions.rs` (`mark_emails_as_read` and friends):
`split('-')`, require at least 3 segments, second segment is the folder,
last segment parses as the `u32` UID; the first segment is the account
(per the format comment `"account-folder-uid"`). -/
def decodeEmailId (s : List Char) : Option (List Char × List Char × Nat) :=
  let parts := s.splitOn '-'
  if parts.length ≥ 3 then
    match parseU32 (parts.getLastD []) with
    | some uid => some (parts.getD 0 [], parts.getD 1 [], uid)
    | none => none
  else none

/-- The part of the decoder the bulk-command loop actually uses:
the `(folder, uid)` pair. -/
def decodeFolderUid (s : List Char) : Option (List Char × Nat) :=
  let parts := s.splitOn '-'
  if parts.length ≥ 3 then
    match parseU32 (parts.getLastD []) with
    | some uid => some (parts.getD 1 [], uid)
    | none => none
  else none

/-! ## Digit-rendering and parsing lemmas -/

theorem digitChar_facts {d : Nat} (h : d < 10) :
    isDigitChar (Nat.digitChar d) = true ∧ digitVal (Nat.digitChar d) = d := by
  interval_cases d <;> exact ⟨rfl, rfl⟩

theorem parseDigitsAux_all_digits :
    ∀ (s : List Char), (∀ c ∈ s, isDigitChar c = true) → ∀ acc,
      parseDigitsAux s acc = some (s.foldl (fun a c => a * 10 + digitVal c) acc)
  | [], _, acc => rfl
  | c :: cs, h, acc => by
    have hc : isDigitChar c = true := h c (List.mem_cons_self c cs)
    have ih := parseDigitsAux_all_digits cs (fun x hx => h x (List.mem_cons_of_mem c hx))
    simp [parseDigitsAux, hc, ih]

theorem foldr_digitChar_eq_ofDigits (L : List Nat) (h : ∀ d ∈ L, d < 10) :
    L.foldr (fun d a => a * 10 + digitVal (Nat.digitChar d)) 0 = Nat.ofDigits 10 L := by
  induction L with
  | nil => simp [Nat.ofDigits]
  | cons d L ih =>
    have hd : d < 10 := h d (List.mem_cons_self d L)
    have hL : ∀ x ∈ L, x < 10 := fun x hx => h x (List.mem_cons_of_mem d hx)
    have hdc := (digitChar_facts hd).2
    simp only [List.foldr_cons, ih hL, Nat.ofDigits_cons, hdc]
    ring

theorem natToDecimal_all_digits (n : Nat) :
    ∀ c ∈ natToDecimal n, isDigitChar c = true := by
  intro c hc
  by_cases h0 : n = 0
  · subst h0
    simp [natToDecimal] at hc
    subst hc
    rfl
  · simp [natToDecimal, h0] at hc
    obtain ⟨d, hd, rfl⟩ := hc
    exact (digitChar_facts (Nat.digits_lt_base (by norm_num) hd)).1

theorem natToDecimal_ne_nil (n : Nat) : natToDecimal n ≠ [] := by
  by_cases h0 : n = 0
  · simp [natToDecimal, h0]
  · simp [natToDecimal, h0, Nat.digits_ne_nil_iff_ne_zero.mpr h0]

theorem natToDecimal_foldl (n : Nat) :
    (natToDecimal n).foldl (fun a c => a * 10 + digitVal c) 0 = n := by
  by_cases h0 : n = 0
  · subst h0; rfl
  · have hlt : ∀ d ∈ Nat.digits 10 n, d < 10 :=
      fun d hd => Nat.digits_lt_base (by norm_num) hd
    calc (natToDecimal n).foldl (fun a c => a * 10 + digitVal c) 0
        = (((Nat.digits 10 n).map Nat.digitChar).reverse).foldl
            (fun a c => a * 10 + digitVal c) 0 := by
          simp [natToDecimal, h0]
      _ = ((Nat.digits 10 n).map Nat.digitChar).foldr
            (fun c a => a * 10 + digitVal c) 0 := by
          rw [List.foldl_reverse]
      _ = (Nat.digits 10 n).foldr (fun d a => a * 10 + digitVal (Nat.digitChar d)) 0 := by
          rw [List.foldr_map]
      _ = Nat.ofDigits 10 (Nat.digits 10 n) := foldr_digitChar_eq_ofDigits _ hlt
      _ = n := Nat.ofDigits_digits 10 n

theorem parseU32_natToDecimal {n : Nat} (h : n < 2 ^ 32) :
    parseU32 (natToDecimal n) = some n := by
  obtain ⟨c, cs, hcons⟩ := List.exists_cons_of_ne_nil (natToDecimal_ne_nil n)
  have hdigits := natToDecimal_all_digits n
  have hc : isDigitChar c = true := by
    apply hdigits; rw [hcons]; exact List.mem_cons_self c cs
  have hcp : c ≠ '+' := by
    intro hEq
    rw [hEq] at hc
    exact absurd hc (by decide)
  have hstrip : stripPlus (natToDecimal n) = natToDecimal n := by
    rw [hcons]; simp [stripPlus, hcp]
  have hparse := parseDigitsAux_all_digits (natToDecimal n) hdigits 0
  rw [natToDecimal_foldl] at hparse
  simp only [parseU32, hstrip, hparse]
  rw [hcons]
  have h' : n < 4294967296 := h
  simp [h']

/-! ## The identifier codec round-trip -/

theorem splitOn_encode {a f : List Char} (ha : ('-' : Char) ∉ a) (hf : ('-' : Char) ∉ f)
    {d : List Char} (hd : ('-' : Char) ∉ d) :
    (a ++ '-' :: (f ++ '-' :: d)).splitOn '-' = [a, f, d] := by
  have pa : ∀ x ∈ a, ¬((x == '-') = true) := by
    intro x hx hbeq
    exact ha (by simpa using (beq_iff_eq.mp hbeq ▸ hx))
  have pf : ∀ x ∈ f, ¬((x == '-') = true) := by
    intro x hx hbeq
    exact hf (by simpa using (beq_iff_eq.mp hbeq ▸ hx))
  have pd : ∀ x ∈ d, ¬((x == '-') = true) := by
    intro x hx hbeq
    exact hd (by simpa using (beq_iff_eq.mp hbeq ▸ hx))
  have hsep : (('-' : Char) == '-') = true := by decide
  show (a ++ '-' :: (f ++ '-' :: d)).splitOnP (· == '-') = [a, f, d]
  rw [List.splitOnP_first _ a pa '-' hsep, List.splitOnP_first _ f pf '-' hsep,
    List.splitOnP_eq_single _ _ pd]

theorem natToDecimal_no_dash (n : Nat) : ('-' : Char) ∉ natToDecimal n := by
  intro hmem
  have := natToDecimal_all_digits n '-' hmem
  exact absurd this (by decide)

/-- C2: decoding the encoded composite id recovers the triple, whenever the
account and folder contain no separator. -/
theorem decode_encode_roundtrip (a f : List Char) (uid : Nat)
    (ha : ('-' : Char) ∉ a) (hf : ('-' : Char) ∉ f) (hu : uid < 2 ^ 32) :
    decodeEmailId (encodeEmailId a f uid) = some (a, f, uid) := by
  have hsplit := splitOn_encode ha hf (natToDecimal_no_dash uid)
  simp only [decodeEmailId, encodeEmailId, hsplit]
  have hlast : ([a, f, natToDecimal uid] : List (List Char)).getLastD [] = natToDecimal uid := rfl
  simp [hlast, parseU32_natToDecimal hu]

/-! ## Message parsing and the fetch window (`imap_client.rs`) -/

deriving instance DecidableEq for Except

/-- The outcome of `mailparse::parse_mail` on a message's bytes, modelled
structurally: the header list (name/value pairs in order), the number of
MIME subparts, and the result of `get_body()`. -/
structure ParsedMail where
  headers : List (List Char × List Char)
  subparts : Nat
  bodyOk : Bool
  bodyText : List Char
deriving DecidableEq

/-- `mailparse`'s `get_first_value`: first header whose name matches
case-insensitively. -/
def get_first_value (headers : List (List Char × List Char)) (name : List Char) :
    Option (List Char) :=
  (headers.find? (fun h => lowerStr h.1 == lowerStr name)).map (·.2)

/-- `mailparse`'s `get_all_values`. -/
def get_all_values (headers : List (List Char × List Char)) (name : List Char) :
    List (List Char) :=
  (headers.filter (fun h => lowerStr h.1 == lowerStr name)).map (·.2)

/-- The record built by `ImapClient::parse_email`. -/
structure ImapEmail where
  id : List Char
  uid : Nat
  fromAddr : List Char
  toAddrs : List (List Char)
  subject : List Char
  body : List Char
  date : List Char
  read : Bool
  starred : Bool
  has_attachments : Bool
  folder : List Char
deriving DecidableEq

/-- `ImapClient::parse_email` (`imap_client.rs`). The bytes argument is
represented by the `mailparse` outcome on those bytes. -/
def parse_email (uid : Nat) (raw : Except (List Char) ParsedMail) (folder : List Char) :
    Except (List Char) ImapEmail :=
  match raw with
  | .error e => .error ("Failed to parse email: ".toList ++ e)
  | .ok parsed =>
    .ok
      { id := folder ++ '-' :: natToDecimal uid
        uid := uid
        fromAddr := (get_first_value parsed.headers "From".toList).getD "Unknown".toList
        toAddrs :=
          (fun t => if t.isEmpty then ["Unknown".toList] else t)
            (get_all_values parsed.headers "To".toList)
        subject := (get_first_value parsed.headers "Subject".toList).getD "No Subject".toList
        body := if parsed.bodyOk then parsed.bodyText else "Failed to parse body".toList
        date := (get_first_value parsed.headers "Date".toList).getD []
        read := true
        starred := false
        has_attachments := decide (parsed.subparts > 1)
        folder := folder }

/-- One message as returned by `session.fetch`: an optional UID, and an
optional body (absent models `msg.body() == None`; present bodies carry
their `mailparse` outcome). -/
structure FetchedMsg where
  uid : Option Nat
  body : Option (Except (List Char) ParsedMail)
deriving DecidableEq

/-- Whether a fetched message makes it through the ingestion loop without
raising an error (messages without UID or body are merely skipped). -/
def msgParsesOk (folder : List Char) (m : FetchedMsg) : Bool :=
  match m.uid, m.body with
  | some u, some raw =>
    match parse_email u raw folder with
    | .ok _ => true
    | .error _ => false
  | _, _ => true

/-- The email a fetched message contributes, if any. -/
def msgToEmail (folder : List Char) (m : FetchedMsg) : Option ImapEmail :=
  match m.uid, m.body with
  | some u, some raw =>
    match parse_email u raw folder with
    | .ok email => some email
    | .error _ => none
  | _, _ => none

/-- The `for msg in messages.iter().rev()` loop of `ImapClient::fetch_emails`:
skip messages without UID or body, parse the rest, propagate the first
parse error with `?`. The argument list is the already-reversed message
sequence. -/
def fetchLoop (folder : List Char) : List FetchedMsg → Except (List Char) (List ImapEmail)
  | [] => .ok []
  | m :: rest =>
    match m.uid with
    | none => fetchLoop folder rest
    | some u =>
      match m.body with
      | none => fetchLoop folder rest
      | some raw =>
        match parse_email u raw folder with
        | .error e => .error e
        | .ok email =>
          match fetchLoop folder rest with
          | .error e => .error e
          | .ok tail => .ok (email :: tail)

/-- `ImapClient::fetch_emails` (`imap_client.rs`): select the folder (the
mailbox list stands for the selected folder's messages in sequence order,
its length is `mailbox.exists`), fetch the sequence range
`start_seq:message_count`, and ingest the result newest-first. -/
def fetch_emails (mailbox : List FetchedMsg) (folder : List Char) (limit : Nat) :
    Except (List Char) (List ImapEmail) :=
  let message_count := mailbox.length
  let start_seq := if message_count > limit then message_count - limit + 1 else 1
  let fetched := (mailbox.drop (start_seq - 1)).take (message_count + 1 - start_seq)
  fetchLoop folder fetched.reverse

/-! ## Fetch-loop lemmas -/

theorem fetchLoop_all_ok (folder : List Char) :
    ∀ (l : List FetchedMsg), (∀ m ∈ l, msgParsesOk folder m = true) →
      fetchLoop folder l = .ok (l.filterMap (msgToEmail folder))
  | [], _ => rfl
  | m :: rest, h => by
    have hm := h m (List.mem_cons_self m rest)
    have ih := fetchLoop_all_ok folder rest (fun x hx => h x (List.mem_cons_of_mem m hx))
    cases hu : m.uid with
    | none => simp [fetchLoop, hu, msgToEmail, ih]
    | some u =>
      cases hb : m.body with
      | none => simp [fetchLoop, hu, hb, msgToEmail, ih]
      | some raw =>
        cases hp : parse_email u raw folder with
        | error e => exfalso; simp [msgParsesOk, hu, hb, hp] at hm
        | ok email => simp [fetchLoop, hu, hb, hp, msgToEmail, ih]

theorem fetchLoop_isOk (folder : List Char) :
    ∀ (l : List FetchedMsg), (fetchLoop folder l).isOk = l.all (msgParsesOk folder)
  | [] => rfl
  | m :: rest => by
    have ih := fetchLoop_isOk folder rest
    cases hu : m.uid with
    | none => simp [fetchLoop, hu, msgParsesOk, ih, List.all_cons]
    | some u =>
      cases hb : m.body with
      | none => simp [fetchLoop, hu, hb, msgParsesOk, ih, List.all_cons]
      | some raw =>
        cases hp : parse_email u raw folder with
        | error e =>
          simp [fetchLoop, hu, hb, hp, msgParsesOk, List.all_cons, Except.isOk, Except.toBool]
        | ok email =>
          cases hr : fetchLoop folder rest with
          | error e =>
            rw [hr] at ih
            simp [fetchLoop, hu, hb, hp, hr, msgParsesOk, List.all_cons, Except.isOk,
              Except.toBool, ← ih]
          | ok tail =>
            rw [hr] at ih
            simp [fetchLoop, hu, hb, hp, hr, msgParsesOk, List.all_cons, Except.isOk,
              Except.toBool, ← ih]

/-- The sequence-number arithmetic of `fetch_emails` selects exactly the
most recent `limit` messages. -/
theorem fetch_emails_window (mailbox : List FetchedMsg) (folder : List Char) (limit : Nat) :
    fetch_emails mailbox folder limit =
      fetchLoop folder ((mailbox.drop (mailbox.length - limit)).reverse) := by
  by_cases hgt : mailbox.length > limit
  · have h1 : mailbox.length - limit + 1 - 1 = mailbox.length - limit := by omega
    have h2 : mailbox.length + 1 - (mailbox.length - limit + 1) = limit := by omega
    have h3 : (mailbox.drop (mailbox.length - limit)).length ≤ limit := by
      rw [List.length_drop]; omega
    simp only [fetch_emails, if_pos hgt, h1, h2, List.take_of_length_le h3]
  · have h0 : mailbox.length - limit = 0 := by omega
    simp only [fetch_emails, if_neg hgt, h0, Nat.sub_self, List.drop_zero, Nat.add_sub_cancel,
      List.take_length]

/-- C6: `fetch_emails` fetches the most recent `limit` messages by sequence
number and returns them newest-first; when the folder has at most `limit`
messages, all of them are returned. -/
theorem fetch_emails_most_recent (mailbox : List FetchedMsg) (folder : List Char) (limit : Nat)
    (hok : ∀ m ∈ mailbox.drop (mailbox.length - limit), msgParsesOk folder m = true) :
    fetch_emails mailbox folder limit =
      .ok (((mailbox.drop (mailbox.length - limit)).reverse).filterMap (msgToEmail folder)) ∧
    (mailbox.length ≤ limit →
      fetch_emails mailbox folder limit =
        .ok (mailbox.reverse.filterMap (msgToEmail folder))) := by
  have hok' : ∀ m ∈ (mailbox.drop (mailbox.length - limit)).reverse,
      msgParsesOk folder m = true := by
    intro m hm
    exact hok m (List.mem_reverse.mp hm)
  have h1 := fetch_emails_window mailbox folder limit
  have h2 := fetchLoop_all_ok folder _ hok'
  constructor
  · rw [h1, h2]
  · intro hle
    have h0 : mailbox.length - limit = 0 := by omega
    rw [h0, List.drop_zero] at h1 h2
    rw [h1, h2]

theorem fetch_emails_most_recent_witness :
    fetch_emails
        [⟨some 1, some (.ok ⟨[], 0, true, []⟩)⟩,
         ⟨some 2, some (.ok ⟨[], 2, true, []⟩)⟩,
         ⟨some 3, some (.ok ⟨[], 0, false, []⟩)⟩] "INBOX".toList 2 =
      .ok ((([⟨some 1, some (.ok ⟨[], 0, true, []⟩)⟩,
              ⟨some 2, some (.ok ⟨[], 2, true, []⟩)⟩,
              ⟨some 3, some (.ok ⟨[], 0, false, []⟩)⟩] :
                List FetchedMsg).drop 1).reverse.filterMap (msgToEmail "INBOX".toList)) :=
  (fetch_emails_most_recent _ _ 2 (by decide)).1

/-- C4 (amended): the ingestion loop propagates the first parse failure, so
the fetch succeeds exactly when every fetched message with a UID and a body
parses; one bad message fails the whole fetch (messages lacking a UID or a
body are skipped). -/
theorem fetch_emails_ok_iff_all_parse (mailbox : List FetchedMsg) (folder : List Char)
    (limit : Nat) :
    (fetch_emails mailbox folder limit).isOk =
      (mailbox.drop (mailbox.length - limit)).all (msgParsesOk folder) := by
  rw [fetch_emails_window, fetchLoop_isOk, List.all_reverse]

/-- C4 counterexample: a two-message batch whose newest message has
unparsable bytes makes `fetch_emails` return the parse error instead of the
other, successfully parsed, message. -/
theorem fetch_emails_parse_error_aborts_batch :
    fetch_emails
        [⟨some 1, some (.ok ⟨[], 0, true, []⟩)⟩,
         ⟨some 2, some (.error "bad".toList)⟩] "INBOX".toList 50 =
      .error ("Failed to parse email: ".toList ++ "bad".toList) ∧
    msgParsesOk "INBOX".toList ⟨some 1, some (.ok ⟨[], 0, true, []⟩)⟩ = true :=
  ⟨by decide, by decide⟩

/-- C9: every message whose bytes parse yields a record; independently, a
missing From header degrades to "Unknown", a missing Subject to
"No Subject", and a missing Date to the empty string; and for every such
message `has_attachments` holds exactly when it has more than one body
part. -/
theorem parse_email_defaults (parsed : ParsedMail) (uid : Nat) (folder : List Char) :
    ∃ email, parse_email uid (.ok parsed) folder = .ok email ∧
      (get_first_value parsed.headers "From".toList = none →
        email.fromAddr = "Unknown".toList) ∧
      (get_first_value parsed.headers "Subject".toList = none →
        email.subject = "No Subject".toList) ∧
      (get_first_value parsed.headers "Date".toList = none → email.date = []) ∧
      (email.has_attachments = true ↔ parsed.subparts > 1) := by
  refine ⟨_, rfl, ?_, ?_, ?_, ?_⟩
  · intro hFrom
    have hFrom' : get_first_value parsed.headers ['F', 'r', 'o', 'm'] = none := hFrom
    simp [parse_email, hFrom']
  · intro hSubj
    have hSubj' : get_first_value parsed.headers ['S', 'u', 'b', 'j', 'e', 'c', 't'] = none :=
      hSubj
    simp [parse_email, hSubj']
  · intro hDate
    have hDate' : get_first_value parsed.headers ['D', 'a', 't', 'e'] = none := hDate
    simp [parse_email, hDate']
  · simp [parse_email]

theorem parse_email_defaults_witness :
    ∃ email, parse_email 7 (.ok ⟨[("X-Id".toList, "1".toList)], 2, true, []⟩) "INBOX".toList =
        .ok email ∧
      email.fromAddr = "Unknown".toList ∧
      email.subject = "No Subject".toList ∧
      email.date = [] ∧
      (email.has_attachments = true ↔ (2 : Nat) > 1) := by
  obtain ⟨email, heq, hf, hs, hd, ha⟩ :=
    parse_email_defaults ⟨[("X-Id".toList, "1".toList)], 2, true, []⟩ 7 "INBOX".toList
  exact ⟨email, heq, hf (by decide), hs (by decide), hd (by decide), ha⟩

/-! ## Remote operations and the command layer

The IMAP session is abstracted by a `Net` oracle saying which remote
operations succeed; every client method returns its result together with
the trace of remote operations it attempted. Credential lookup
(`get_account_with_credentials`) is abstracted as succeeding.
-/

/-- One remote IMAP operation, as issued by `ImapClient` (`imap_client.rs`). -/
inductive RemoteOp where
  | connect
  | select (folder : List Char)
  | store (uid : Nat) (flags : List Char)
  | expunge
  | copy (uid : Nat) (dest : List Char)
  | renameFolder (oldName newName : List Char)
  | deleteFolder (name : List Char)
  | logout
deriving DecidableEq

/-- Oracle for the remote server's behavior. -/
structure Net where
  connectOk : Bool
  selectOk : List Char → Bool
  storeOk : List Char → Nat → Bool
  expungeOk : List Char → Bool
  renameOk : Bool
  deleteFolderOk : Bool
  logoutOk : Bool

/-- A server on which every remote operation succeeds. -/
def allOkNet : Net :=
  { connectOk := true
    selectOk := fun _ => true
    storeOk := fun _ _ => true
    expungeOk := fun _ => true
    renameOk := true
    deleteFolderOk := true
    logoutOk := true }

def seenAdd : List Char := "+FLAGS (\\Seen)".toList

def seenRemove : List Char := "-FLAGS (\\Seen)".toList

def flaggedAdd : List Char := "+FLAGS (\\Flagged)".toList

def deletedAdd : List Char := "+FLAGS (\\Deleted)".toList

/-- `ImapClient::mark_as_read`: select the folder, then `store uid +Seen`.
Each call selects the folder itself. -/
def mark_as_read (net : Net) (folder : List Char) (uid : Nat) :
    Except (List Char) Unit × List RemoteOp :=
  if net.selectOk folder then
    if net.storeOk folder uid then (.ok (), [.select folder, .store uid seenAdd])
    else (.error "Failed to mark as read".toList, [.select folder, .store uid seenAdd])
  else (.error "Failed to select folder".toList, [.select folder])

/-- `ImapClient::mark_as_starred`: select, then `store uid +Flagged`. -/
def mark_as_starred (net : Net) (folder : List Char) (uid : Nat) :
    Except (List Char) Unit × List RemoteOp :=
  if net.selectOk folder then
    if net.storeOk folder uid then (.ok (), [.select folder, .store uid flaggedAdd])
    else (.error "Failed to mark as starred".toList, [.select folder, .store uid flaggedAdd])
  else (.error "Failed to select folder".toList, [.select folder])

/-- `ImapClient::delete_email`: select, `store uid +Deleted`, expunge. -/
def delete_email (net : Net) (folder : List Char) (uid : Nat) :
    Except (List Char) Unit × List RemoteOp :=
  if net.selectOk folder then
    if net.storeOk folder uid then
      if net.expungeOk folder then
        (.ok (), [.select folder, .store uid deletedAdd, .expunge])
      else
        (.error "Failed to expunge deleted emails".toList,
          [.select folder, .store uid deletedAdd, .expunge])
    else (.error "Failed to mark for deletion".toList, [.select folder, .store uid deletedAdd])
  else (.error "Failed to select folder".toList, [.select folder])

/-- `ImapClient::disconnect`: attempt a logout. -/
def disconnect (net : Net) : Except (List Char) Unit × List RemoteOp :=
  if net.logoutOk then (.ok (), [.logout])
  else (.error "Failed to logout".toList, [.logout])

/-- A row of the `emails` table (the columns the modelled commands touch). -/
structure EmailRow where
  id : List Char
  account_id : List Char
  folder_id : List Char
  uid : Nat
  is_read : Bool
  is_starred : Bool
deriving DecidableEq

/-- A row of the `folders` table. -/
structure FolderRow where
  id : List Char
  account_id : List Char
  name : List Char
deriving DecidableEq

/-- The local cache. -/
structure Db where
  folders : List FolderRow
  emails : List EmailRow
deriving DecidableEq

/-- `UPDATE emails SET is_read = 1 WHERE id IN (...)`. -/
def dbMarkRead (emailIds : List (List Char)) (db : Db) : Db :=
  { db with
    emails := db.emails.map fun e =>
      if e.id ∈ emailIds then { e with is_read := true } else e }

/-- The per-identifier server loop of `mark_emails_as_read`
(`commands/email_actions.rs`): decode each id, silently skip ones that do
not decode, call `ImapClient::mark_as_read` for the rest, and propagate the
first remote failure with `?`. -/
def markReadLoop (net : Net) : List (List Char) → Except (List Char) Unit × List RemoteOp
  | [] => (.ok (), [])
  | id :: rest =>
    match decodeFolderUid id with
    | none => markReadLoop net rest
    | some fu =>
      match mark_as_read net fu.1 fu.2 with
      | (.ok _, tr) =>
        let r := markReadLoop net rest
        (r.1, tr ++ r.2)
      | (.error e, tr) =>
        (.error ("Failed to mark email ".toList ++ id ++ " as read on server: ".toList ++ e), tr)

/-- `mark_emails_as_read` (`commands/email_actions.rs`): empty batch is a
no-op; connect; run the server loop; disconnect (its failure is wrapped and
returned); finally set `is_read` for every requested id in the cache. -/
def mark_emails_as_read (net : Net) (accountId : List Char) (emailIds : List (List Char))
    (db : Db) : Except (List Char) Unit × List RemoteOp × Db :=
  if emailIds.isEmpty then (.ok (), [], db)
  else if net.connectOk then
    match markReadLoop net emailIds with
    | (.ok _, tr) =>
      match disconnect net with
      | (.ok _, dtr) => (.ok (), .connect :: (tr ++ dtr), dbMarkRead emailIds db)
      | (.error e, dtr) =>
        (.error ("Failed to disconnect: ".toList ++ e), .connect :: (tr ++ dtr), db)
    | (.error e, tr) => (.error e, .connect :: tr, db)
  else (.error "Failed to connect to IMAP".toList, [.connect], db)

/-- The remote operations a list of identifiers gives rise to in the
mark-as-read loop: one select and one Seen-store per decodable id. -/
def markOps (ids : List (List Char)) : List RemoteOp :=
  (ids.filterMap decodeFolderUid).flatMap fun fu => [.select fu.1, .store fu.2 seenAdd]

/-- The folder-deletion safety policy of `delete_folder`
(`commands/folder_ops.rs`): the lowercased name must not contain any of the
four protected words. -/
def isEssentialFolder (folderName : List Char) : Bool :=
  containsSub (lowerStr folderName) "inbox".toList ||
  containsSub (lowerStr folderName) "sent".toList ||
  containsSub (lowerStr folderName) "trash".toList ||
  containsSub (lowerStr folderName) "drafts".toList

/-- `delete_folder` (`commands/folder_ops.rs`): the policy check runs before
credentials, connection and any remote call; then the folder is deleted on
the server, the session is disconnected, and the folder row plus its cached
emails are removed in one transaction. `ImapClient::delete_folder` has no
definition under `src`; the remote call is modelled from the spec as a
single folder-deletion operation that may fail. -/
def delete_folder (net : Net) (accountId folderName : List Char) (db : Db) :
    Except (List Char) Unit × List RemoteOp × Db :=
  if isEssentialFolder folderName then
    (.error "Cannot delete essential system folders".toList, [], db)
  else if net.connectOk then
    if net.deleteFolderOk then
      match disconnect net with
      | (.ok _, dtr) =>
        let folderId := accountId ++ '-' :: folderName
        (.ok (), .connect :: .deleteFolder folderName :: dtr,
          { folders := db.folders.filter fun fr => !(fr.id == folderId)
            emails := db.emails.filter fun e => !(e.folder_id == folderId) })
      | (.error e, dtr) =>
        (.error ("Failed to disconnect: ".toList ++ e),
          .connect :: .deleteFolder folderName :: dtr, db)
    else
      (.error "Failed to delete folder on server".toList,
        [.connect, .deleteFolder folderName], db)
  else (.error "Failed to connect to IMAP".toList, [.connect], db)

/-- `rename_folder` (`commands/folder_ops.rs`): connect, rename on the
server, disconnect, then in one transaction repoint the folder row
(`UPDATE folders SET id, name WHERE id = old`) and its cached emails
(`UPDATE emails SET folder_id = new WHERE folder_id = old`). The email
rows' composite `id` column is not touched. `ImapClient::rename_folder`
has no definition under `src`; the remote call is modelled from the spec
as a single rename operation that may fail. -/
def rename_folder (net : Net) (accountId folderName newName : List Char) (db : Db) :
    Except (List Char) Unit × List RemoteOp × Db :=
  if net.connectOk then
    if net.renameOk then
      match disconnect net with
      | (.ok _, dtr) =>
        let oldId := accountId ++ '-' :: folderName
        let newId := accountId ++ '-' :: newName
        (.ok (), .connect :: .renameFolder folderName newName :: dtr,
          { folders := db.folders.map fun fr =>
              if fr.id = oldId then { fr with id := newId, name := newName } else fr
            emails := db.emails.map fun e =>
              if e.folder_id = oldId then { e with folder_id := newId } else e })
      | (.error e, dtr) =>
        (.error ("Failed to disconnect: ".toList ++ e),
          .connect :: .renameFolder folderName newName :: dtr, db)
    else
      (.error "Failed to rename folder on server".toList,
        [.connect, .renameFolder folderName newName], db)
  else (.error "Failed to connect to IMAP".toList, [.connect], db)

/-- `imap_mark_email` (`imap_commands.rs`): string dispatch over the
requested action for an already-connected account. -/
def imap_mark_email (net : Net) (folder : List Char) (uid : Nat) (action : List Char) :
    Except (List Char) Unit × List RemoteOp :=
  if action = "read".toList then mark_as_read net folder uid
  else if action = "starred".toList then mark_as_starred net folder uid
  else if action = "delete".toList then delete_email net folder uid
  else (.error ("Unknown action: ".toList ++ action), [])

/-- The embedded-identifier invariant: the folder name embedded in an
email's composite id (second `-`-separated segment) matches the folder
name of its `folder_id` foreign key (second segment of the folder id
`account-folder`). -/
def emailIdFolderMatches (e : EmailRow) : Bool :=
  (e.id.splitOn '-').getD 1 [] == (e.folder_id.splitOn '-').getD 1 []

/-! ## Lemmas about the mark-as-read loop -/

theorem markReadLoop_allOk :
    ∀ (ids : List (List Char)), markReadLoop allOkNet ids = (.ok (), markOps ids)
  | [] => rfl
  | id :: rest => by
    have ih := markReadLoop_allOk rest
    cases hdec : decodeFolderUid id with
    | none => simp [markReadLoop, hdec, ih, markOps, List.filterMap_cons]
    | some fu =>
      have hmark : mark_as_read allOkNet fu.1 fu.2 =
          (.ok (), [.select fu.1, .store fu.2 seenAdd]) := rfl
      simp [markReadLoop, hdec, hmark, ih, markOps, List.filterMap_cons]

/-- Which ops are folder selections. -/
def isSelect : RemoteOp → Bool
  | .select _ => true
  | _ => false

theorem markOps_countP_select (ids : List (List Char)) :
    (markOps ids).countP isSelect = (ids.filterMap decodeFolderUid).length := by
  unfold markOps
  induction ids.filterMap decodeFolderUid with
  | nil => rfl
  | cons fu L ih =>
    simp [List.flatMap_cons, List.countP_append, List.countP_cons, ih, isSelect,
      Nat.add_comm]

theorem mark_as_read_no_logout (net : Net) (folder : List Char) (uid : Nat) :
    RemoteOp.logout ∉ (mark_as_read net folder uid).2 := by
  unfold mark_as_read
  by_cases hs : net.selectOk folder <;> by_cases ht : net.storeOk folder uid <;>
    simp [hs, ht]

theorem markReadLoop_no_logout (net : Net) :
    ∀ (ids : List (List Char)), RemoteOp.logout ∉ (markReadLoop net ids).2
  | [] => by simp [markReadLoop]
  | id :: rest => by
    have ih := markReadLoop_no_logout net rest
    cases hdec : decodeFolderUid id with
    | none => simpa [markReadLoop, hdec] using ih
    | some fu =>
      have hnl := mark_as_read_no_logout net fu.1 fu.2
      cases hmark : mark_as_read net fu.1 fu.2 with
      | mk r tr =>
        rw [hmark] at hnl
        cases r with
        | ok u => simp [markReadLoop, hdec, hmark]; exact ⟨hnl, ih⟩
        | error e => simpa [markReadLoop, hdec, hmark] using hnl

/-! ## C1: a malformed identifier is skipped, the rest are marked -/

/-- C1: a bulk mark-as-read over a batch whose identifiers are all
well-formed except one marks every well-formed identifier on the server
(one select and one Seen-store each, in order), skips the malformed one,
returns success, and applies the cache update. -/
theorem mark_emails_as_read_skips_malformed (accountId : List Char) (db : Db)
    (pre post : List (List Char)) (bad : List Char)
    (hpre : ∀ id ∈ pre, (decodeFolderUid id).isSome = true)
    (hpost : ∀ id ∈ post, (decodeFolderUid id).isSome = true)
    (hbad : decodeFolderUid bad = none) :
    mark_emails_as_read allOkNet accountId (pre ++ bad :: post) db =
      (.ok (), .connect :: (markOps (pre ++ post) ++ [.logout]),
        dbMarkRead (pre ++ bad :: post) db) := by
  have hne : (pre ++ bad :: post).isEmpty = false := by simp
  have hloop := markReadLoop_allOk (pre ++ bad :: post)
  have hops : markOps (pre ++ bad :: post) = markOps (pre ++ post) := by
    simp [markOps, List.filterMap_append, List.filterMap_cons, hbad]
  rw [hops] at hloop
  have hd : disconnect allOkNet = (.ok (), [.logout]) := rfl
  have hc : allOkNet.connectOk = true := rfl
  simp [mark_emails_as_read, hne, hc, hloop, hd]

theorem mark_emails_as_read_skips_malformed_witness :
    mark_emails_as_read allOkNet "acct".toList
        ["acct-work-5".toList, "oops".toList, "acct-spam-7".toList]
        ⟨[], [⟨"acct-work-5".toList, "acct".toList, "acct-work".toList, 5, false, false⟩]⟩ =
      (.ok (), .connect :: (markOps ["acct-work-5".toList, "acct-spam-7".toList] ++ [.logout]),
        dbMarkRead ["acct-work-5".toList, "oops".toList, "acct-spam-7".toList]
          ⟨[], [⟨"acct-work-5".toList, "acct".toList, "acct-work".toList, 5, false, false⟩]⟩) :=
  mark_emails_as_read_skips_malformed "acct".toList
    ⟨[], [⟨"acct-work-5".toList, "acct".toList, "acct-work".toList, 5, false, false⟩]⟩
    ["acct-work-5".toList] ["acct-spam-7".toList] "oops".toList
    (by decide) (by decide) (by decide)

/-! ## C7: folder selections are per identifier, not per distinct folder -/

/-- C7 (amended): the bulk mark-as-read loop does not group identifiers by
folder: `ImapClient::mark_as_read` selects the folder on every call, so the
number of select round trips equals the number of well-formed identifiers
in the batch. -/
theorem mark_emails_as_read_selects_per_id (accountId : List Char) (db : Db)
    (ids : List (List Char)) (hne : ids ≠ []) :
    ((mark_emails_as_read allOkNet accountId ids db).2.1).countP isSelect =
      (ids.filterMap decodeFolderUid).length := by
  have hne' : ids.isEmpty = false := by
    cases ids with
    | nil => exact absurd rfl hne
    | cons a l => rfl
  have hloop := markReadLoop_allOk ids
  have hd : disconnect allOkNet = (.ok (), [.logout]) := rfl
  have hc : allOkNet.connectOk = true := rfl
  simp [mark_emails_as_read, hne', hc, hloop, hd, List.countP_append,
    List.countP_cons, isSelect, markOps_countP_select]

theorem mark_emails_as_read_selects_per_id_witness :
    ((mark_emails_as_read allOkNet "a".toList ["a-f-1".toList, "a-f-2".toList]
        ⟨[], []⟩).2.1).countP isSelect =
      ((["a-f-1".toList, "a-f-2".toList] : List (List Char)).filterMap decodeFolderUid).length :=
  mark_emails_as_read_selects_per_id "a".toList ⟨[], []⟩
    ["a-f-1".toList, "a-f-2".toList] (by decide)

/-- C7 counterexample: two identifiers in the same folder cause two select
round trips, while the batch has one distinct folder. -/
theorem mark_emails_as_read_select_count_counterexample :
    ((mark_emails_as_read allOkNet "a".toList ["a-f-1".toList, "a-f-2".toList]
        ⟨[], []⟩).2.1).countP isSelect = 2 ∧
    (((["a-f-1".toList, "a-f-2".toList] : List (List Char)).filterMap
        decodeFolderUid).map Prod.fst).dedup.length = 1 ∧
    (2 : Nat) ≠ 1 :=
  ⟨by decide, by decide, by decide⟩

/-! ## C8: disconnect is skipped on failure, and its own failure propagates -/

/-- C8 (amended): if a remote mark fails mid-batch, `mark_emails_as_read`
returns that error at once without attempting disconnect and without
touching the cache; and when the marks succeed but the disconnect fails,
the disconnect error is returned as the operation's error (and the cache
update is skipped). -/
theorem mark_emails_as_read_disconnect_behavior (net : Net) (accountId : List Char)
    (ids : List (List Char)) (db : Db) (hconn : net.connectOk = true) (hne : ids ≠ []) :
    (∀ e tr, markReadLoop net ids = (.error e, tr) →
      mark_emails_as_read net accountId ids db = (.error e, .connect :: tr, db) ∧
      RemoteOp.logout ∉ (mark_emails_as_read net accountId ids db).2.1) ∧
    (∀ tr, markReadLoop net ids = (.ok (), tr) → net.logoutOk = false →
      mark_emails_as_read net accountId ids db =
        (.error ("Failed to disconnect: ".toList ++ "Failed to logout".toList),
          .connect :: (tr ++ [.logout]), db)) := by
  have hne' : ids.isEmpty = false := by
    cases ids with
    | nil => exact absurd rfl hne
    | cons a l => rfl
  constructor
  · intro e tr hloop
    have hnl := markReadLoop_no_logout net ids
    rw [hloop] at hnl
    have heq : mark_emails_as_read net accountId ids db = (.error e, .connect :: tr, db) := by
      simp [mark_emails_as_read, hne', hconn, hloop]
    refine ⟨heq, ?_⟩
    rw [heq]
    simp
    exact hnl
  · intro tr hloop hlogout
    simp [mark_emails_as_read, hne', hconn, hloop, disconnect, hlogout]

theorem mark_emails_as_read_disconnect_behavior_witness :
    mark_emails_as_read
        ⟨true, fun _ => true, fun _ _ => false, fun _ => true, true, true, true⟩
        "a".toList ["a-f-1".toList] ⟨[], []⟩ =
      (.error ("Failed to mark email ".toList ++ "a-f-1".toList ++
          " as read on server: ".toList ++ "Failed to mark as read".toList),
        .connect :: [.select "f".toList, .store 1 seenAdd], ⟨[], []⟩) :=
  ((mark_emails_as_read_disconnect_behavior
      ⟨true, fun _ => true, fun _ _ => false, fun _ => true, true, true, true⟩
      "a".toList ["a-f-1".toList] ⟨[], []⟩ rfl (by decide)).1
    ("Failed to mark email ".toList ++ "a-f-1".toList ++
      " as read on server: ".toList ++ "Failed to mark as read".toList)
    [.select "f".toList, .store 1 seenAdd] (by decide)).1

/-- C8 counterexample: with a server that fails the Seen-store, the bulk
mark returns an error and never attempts a logout; with a server that fails
only the logout, the disconnect failure is propagated as the operation's
error. -/
theorem mark_emails_as_read_disconnect_counterexample :
    ((mark_emails_as_read
        ⟨true, fun _ => true, fun _ _ => false, fun _ => true, true, true, true⟩
        "a".toList ["a-f-1".toList] ⟨[], []⟩).1 ≠ .ok () ∧
      RemoteOp.logout ∉ (mark_emails_as_read
        ⟨true, fun _ => true, fun _ _ => false, fun _ => true, true, true, true⟩
        "a".toList ["a-f-1".toList] ⟨[], []⟩).2.1) ∧
    (mark_emails_as_read
        ⟨true, fun _ => true, fun _ _ => true, fun _ => true, true, true, false⟩
        "a".toList ["a-f-1".toList] ⟨[], []⟩).1 =
      .error ("Failed to disconnect: ".toList ++ "Failed to logout".toList) :=
  ⟨⟨by decide, by decide⟩, by decide⟩

/-! ## C2 witness -/

theorem decode_encode_roundtrip_witness :
    decodeEmailId (encodeEmailId "acct".toList "INBOX".toList 42) =
      some ("acct".toList, "INBOX".toList, 42) :=
  decode_encode_roundtrip "acct".toList "INBOX".toList 42 (by decide) (by decide) (by decide)

/-! ## C3: folder rename repoints folder ids but not composite ids -/

/-- C3 (amended): after a successful rename of folder `A` to `B ≠ A`, every
cached email previously under `A` has its `folder_id` repointed to `B` and
no email's `folder_id` still references `A`; but the emails' composite
`id` column is left unchanged, so the folder name embedded in the
identifier still names `A`. -/
theorem rename_folder_repoints_folder_ids (accountId A B : List Char) (db : Db)
    (hAB : A ≠ B) :
    (rename_folder allOkNet accountId A B db).1 = .ok () ∧
    (∀ e ∈ db.emails, e.folder_id = accountId ++ '-' :: A →
      ({ e with folder_id := accountId ++ '-' :: B } : EmailRow) ∈
        (rename_folder allOkNet accountId A B db).2.2.emails) ∧
    (∀ e ∈ (rename_folder allOkNet accountId A B db).2.2.emails,
      e.folder_id ≠ accountId ++ '-' :: A) ∧
    (∀ e ∈ (rename_folder allOkNet accountId A B db).2.2.emails,
      ∃ e₀ ∈ db.emails, e.id = e₀.id) := by
  have hc : allOkNet.connectOk = true := rfl
  have hrn : allOkNet.renameOk = true := rfl
  have hd : disconnect allOkNet = (.ok (), [.logout]) := rfl
  have hids : (accountId ++ '-' :: A) ≠ (accountId ++ '-' :: B) := by
    intro h
    have := List.append_cancel_left h
    simp only [List.cons.injEq] at this
    exact hAB this.2
  have hr : rename_folder allOkNet accountId A B db =
      (.ok (), [.connect, .renameFolder A B, .logout],
        { folders := db.folders.map fun fr =>
            if fr.id = accountId ++ '-' :: A then
              { fr with id := accountId ++ '-' :: B, name := B } else fr
          emails := db.emails.map fun e =>
            if e.folder_id = accountId ++ '-' :: A then
              { e with folder_id := accountId ++ '-' :: B } else e }) := by
    simp [rename_folder, hc, hrn, hd]
  refine ⟨by rw [hr], ?_, ?_, ?_⟩
  · intro e he hfold
    rw [hr]
    have := List.mem_map_of_mem
      (fun e : EmailRow =>
        if e.folder_id = accountId ++ '-' :: A then
          { e with folder_id := accountId ++ '-' :: B } else e) he
    simpa [hfold] using this
  · intro e he
    rw [hr] at he
    simp only [List.mem_map] at he
    obtain ⟨x, hx, rfl⟩ := he
    by_cases hxf : x.folder_id = accountId ++ '-' :: A
    · rw [if_pos hxf]
      intro hcontra
      exact hids hcontra.symm
    · rw [if_neg hxf]
      exact hxf
  · intro e he
    rw [hr] at he
    simp only [List.mem_map] at he
    obtain ⟨x, hx, rfl⟩ := he
    refine ⟨x, hx, ?_⟩
    by_cases hxf : x.folder_id = accountId ++ '-' :: A
    · rw [if_pos hxf]
    · rw [if_neg hxf]

theorem rename_folder_repoints_folder_ids_witness :
    (rename_folder allOkNet "acct".toList "A".toList "B".toList
      ⟨[⟨"acct-A".toList, "acct".toList, "A".toList⟩],
        [⟨"acct-A-1".toList, "acct".toList, "acct-A".toList, 1, false, false⟩]⟩).1 =
      .ok () :=
  (rename_folder_repoints_folder_ids "acct".toList "A".toList "B".toList
    ⟨[⟨"acct-A".toList, "acct".toList, "A".toList⟩],
      [⟨"acct-A-1".toList, "acct".toList, "acct-A".toList, 1, false, false⟩]⟩
    (by decide)).1

/-- C3 counterexample: before the rename, the single cached email under
`acct-A` satisfies the embedded-identifier invariant; after renaming `A`
to `B`, its `folder_id` says `B` while its composite id still embeds `A`,
so the invariant is broken, not preserved. -/
theorem rename_folder_breaks_embedded_id :
    (⟨[⟨"acct-A".toList, "acct".toList, "A".toList⟩],
        [⟨"acct-A-1".toList, "acct".toList, "acct-A".toList, 1, false, false⟩]⟩ :
          Db).emails.all emailIdFolderMatches = true ∧
    ((rename_folder allOkNet "acct".toList "A".toList "B".toList
        ⟨[⟨"acct-A".toList, "acct".toList, "A".toList⟩],
          [⟨"acct-A-1".toList, "acct".toList, "acct-A".toList, 1, false, false⟩]⟩).2.2).emails.all
      emailIdFolderMatches = false :=
  ⟨by decide, by decide⟩

/-! ## C5: the deletion safety policy runs before any remote or local effect -/

/-- C5: when the requested folder name case-insensitively contains one of
the protected words, `delete_folder` returns the policy error with no
remote operation attempted and the cache untouched; any other name passes
the check, and on a fully working server the remote folder deletion is
attempted and the command succeeds. -/
theorem delete_folder_policy (net : Net) (accountId folderName : List Char) (db : Db) :
    (isEssentialFolder folderName = true →
      delete_folder net accountId folderName db =
        (.error "Cannot delete essential system folders".toList, [], db)) ∧
    (isEssentialFolder folderName = false →
      (delete_folder allOkNet accountId folderName db).1 = .ok () ∧
      RemoteOp.deleteFolder folderName ∈
        (delete_folder allOkNet accountId folderName db).2.1) := by
  constructor
  · intro h
    simp [delete_folder, h]
  · intro h
    have hc : allOkNet.connectOk = true := rfl
    have hdel : allOkNet.deleteFolderOk = true := rfl
    have hd : disconnect allOkNet = (.ok (), [.logout]) := rfl
    simp [delete_folder, h, hc, hdel, hd]

theorem delete_folder_policy_witness :
    delete_folder allOkNet "acct".toList "MyInbox".toList ⟨[], []⟩ =
      (.error "Cannot delete essential system folders".toList, [], ⟨[], []⟩) ∧
    (delete_folder allOkNet "acct".toList "Work".toList ⟨[], []⟩).1 = .ok () :=
  ⟨(delete_folder_policy allOkNet "acct".toList "MyInbox".toList ⟨[], []⟩).1 (by decide),
    ((delete_folder_policy allOkNet "acct".toList "Work".toList ⟨[], []⟩).2 (by decide)).1⟩

/-! ## C10: the single-message action dispatch -/

/-- C10: `imap_mark_email` dispatches exactly the strings "read",
"starred" and "delete" to the corresponding remote mutations; every other
action string — including "unread" and "unstarred", which the request type
documents as valid — gets the "Unknown action" error with no remote
operation performed. -/
theorem imap_mark_email_dispatch (net : Net) (folder : List Char) (uid : Nat)
    (action : List Char) :
    (action = "read".toList →
      imap_mark_email net folder uid action = mark_as_read net folder uid) ∧
    (action = "starred".toList →
      imap_mark_email net folder uid action = mark_as_starred net folder uid) ∧
    (action = "delete".toList →
      imap_mark_email net folder uid action = delete_email net folder uid) ∧
    (action ≠ "read".toList → action ≠ "starred".toList → action ≠ "delete".toList →
      imap_mark_email net folder uid action =
        (.error ("Unknown action: ".toList ++ action), [])) := by
  refine ⟨fun h => ?_, fun h => ?_, fun h => ?_, fun h1 h2 h3 => ?_⟩
  · subst h; rfl
  · subst h; rfl
  · subst h; rfl
  · have h1' : action ≠ ['r', 'e', 'a', 'd'] := h1
    have h2' : action ≠ ['s', 't', 'a', 'r', 'r', 'e', 'd'] := h2
    have h3' : action ≠ ['d', 'e', 'l', 'e', 't', 'e'] := h3
    simp [imap_mark_email, h1', h2', h3']

theorem imap_mark_email_dispatch_witness :
    imap_mark_email allOkNet "INBOX".toList 3 "unread".toList =
      (.error ("Unknown action: ".toList ++ "unread".toList), []) ∧
    imap_mark_email allOkNet "INBOX".toList 3 "read".toList =
      mark_as_read allOkNet "INBOX".toList 3 :=
  ⟨(imap_mark_email_dispatch allOkNet "INBOX".toList 3 "unread".toList).2.2.2
      (by decide) (by decide) (by decide),
    (imap_mark_email_dispatch allOkNet "INBOX".toList 3 "read".toList).1 rfl⟩

end SimpleMail
